import Mathlib

/-!
Shallow embedding of the Intel_Briefing collection pipeline
(`src/intel_collector.py`, `src/external/fetch_news.py`,
`src/utils/verifier.py`, `src/sensors/arxiv_ai.py`) together with proofs
about its deduplication, keyword filtering, link verification, link
validation and bundle-assembly behaviour.

Python dictionaries that represent one intelligence item are embedded as
the `Item` structure; strings are manipulated as `List Char` where the
Python code works through `str` methods or regular expressions, so that
all definitions are executable.
-/

namespace IntelBriefing

/-- One normalized intelligence item: embedding of the ad-hoc Python dicts
built by the fetchers and sensors.  Every field the collector ever writes
is present; `title` is `Option String` so that a dict without a `"title"`
key (as produced by the social sensor) is distinguishable from a dict
whose title is the empty string — `item.get("title", "")` is `getTitle`
below, and maps both to `""`. -/
structure Item where
  source : String := ""
  category : String := ""
  title : Option String := none
  url : String := ""
  heat : String := ""
  time : String := ""
  tagline : String := ""
  authors : String := ""
  summary : String := ""
  categories : String := ""
  content : String := ""
  author : String := ""
  itemType : String := ""
  grok_review : Option String := none
  deriving DecidableEq, Repr

/-- `item.get("title", "")`. -/
def Item.getTitle (it : Item) : String := it.title.getD ""

/-- `s.strip()` on a character list: drop leading and trailing whitespace. -/
def stripChars (cs : List Char) : List Char :=
  ((cs.dropWhile Char.isWhitespace).reverse.dropWhile Char.isWhitespace).reverse

/-- `item.get(key, "").strip().lower()` for the dedup key `"title"`:
the normalized title as a character list. -/
def normTitle (it : Item) : List Char :=
  (stripChars it.getTitle.data).map Char.toLower

/-- Loop body of `_dedup_items` (src/intel_collector.py:252-263): `seen`
is the set of normalized titles already kept.  Python's
`if title and title not in seen` / `elif not title` branch order is kept. -/
def dedupGo (seen : List (List Char)) : List Item → List Item
  | [] => []
  | it :: rest =>
    if normTitle it ≠ [] ∧ normTitle it ∉ seen
    then it :: dedupGo (normTitle it :: seen) rest
    else if normTitle it = [] then it :: dedupGo seen rest
    else dedupGo seen rest

/-- `_dedup_items(items, key="title")` from src/intel_collector.py
(every call site uses the default key). -/
def _dedup_items (items : List Item) : List Item := dedupGo [] items

/-- Spec-worded deduplicator, for comparison with `_dedup_items`
(see spec §4.4): walking the list with the already-processed prefix
`prev`, an item is kept iff its normalized title is empty or no earlier
item of the input has the same normalized title. -/
def dedupSpecFrom (prev : List Item) : List Item → List Item
  | [] => []
  | it :: rest =>
    if normTitle it = [] ∨ ∀ p ∈ prev, normTitle p ≠ normTitle it
    then it :: dedupSpecFrom (prev ++ [it]) rest
    else dedupSpecFrom (prev ++ [it]) rest

/-- Spec-worded deduplicator, started on the empty prefix. -/
def dedupSpec (items : List Item) : List Item := dedupSpecFrom [] items

/-- First example item of the dedup test vector. -/
def exHello : Item := { title := some "Hello World", url := "a" }

/-- Second example item: same title as `exHello` up to case. -/
def exHello2 : Item := { title := some "hello world", url := "b" }

/-- Third example item: a distinct title. -/
def exDifferent : Item := { title := some "Different", url := "c" }

/-- An item whose title is the empty string. -/
def exEmptyA : Item := { title := some "", url := "a" }

/-- A second item whose title is the empty string. -/
def exEmptyB : Item := { title := some "", url := "b" }

/-! ## Keyword filtering (`filter_items`, src/external/fetch_news.py:30-36)

The Python builds the pattern `(?i)(\bk1\b|\bk2\b|...)` from the stripped,
non-empty comma-separated terms and keeps the items whose title matches.
The regex is embedded directly: `\w` is the ASCII word class
(letter/digit/underscore), `\b` holds between two positions of which
exactly one side is a word character, `(?i)` is modelled by per-character
lowercasing, and `re.escape` makes each term a literal. -/

/-- ASCII `\w`: letter, digit or underscore. -/
def isWordChar (c : Char) : Bool := c.isAlphanum || c == '_'

/-- Word-character test with the out-of-string side counting as non-word. -/
def optWordChar : Option Char → Bool
  | none => false
  | some c => isWordChar c

/-- `\b` between a left and right neighbour: exactly one side is a word
character. -/
def isBoundary (left right : Option Char) : Bool := optWordChar left != optWordChar right

/-- Case-insensitive character equality, the effect of the `(?i)` flag. -/
def ciEqChar (a b : Char) : Bool := a.toLower == b.toLower

/-- The pattern (first argument) matches literally, case-insensitively, at
the head of the text (second argument). -/
def ciMatchesHere : List Char → List Char → Bool
  | [], _ => true
  | _ :: _, [] => false
  | a :: pat, b :: text => ciEqChar a b && ciMatchesHere pat text

/-- `\b` + literal term + `\b` matches inside `title` at position `i`. -/
def wordMatchAt (title k : List Char) (i : Nat) : Bool :=
  ciMatchesHere k (title.drop i) &&
  isBoundary (if i = 0 then none else title.get? (i - 1)) (title.get? i) &&
  isBoundary (title.get? (i + k.length - 1)) (title.get? (i + k.length))

/-- `re.search` of `\bk\b` against `title`: a match at some position. -/
def wholeWordMatch (title k : List Char) : Bool :=
  (List.range (title.length + 1)).any fun i => wordMatchAt title k i

/-- `keyword.split(',')` on a character list. -/
def splitOnComma : List Char → List (List Char)
  | [] => [[]]
  | c :: cs =>
    if c = ',' then [] :: splitOnComma cs
    else
      match splitOnComma cs with
      | [] => [[c]]
      | r :: rs => (c :: r) :: rs

/-- `[k.strip() for k in keyword.split(',') if k.strip()]`. -/
def splitKeywords (keyword : String) : List (List Char) :=
  ((splitOnComma keyword.data).map stripChars).filter (· ≠ [])

/-- `re.search` of the full pattern `(?i)(\bk1\b|\bk2\b|...)`: with no
terms the joined pattern is the empty alternation `(?i)()`, which matches
every string (including the empty title), as Python's `re.search` of an
empty pattern succeeds at position 0. -/
def titleMatches (terms : List (List Char)) (title : List Char) : Bool :=
  terms.isEmpty || terms.any fun k => wholeWordMatch title k

/-- `filter_items(items, keyword)` from src/external/fetch_news.py:
`if not keyword: return items` (both `None` and the empty string are
falsy), otherwise keep the items whose title the pattern matches. -/
def filter_items (items : List Item) (keyword : Option String) : List Item :=
  match keyword with
  | none => items
  | some kw =>
    if kw = "" then items
    else items.filter fun it => titleMatches (splitKeywords kw) it.getTitle.data

/-- Example item titled "Python is great". -/
def exPython : Item := { title := some "Python is great" }

/-- Example item titled "Java is fine". -/
def exJava : Item := { title := some "Java is fine" }

/-- Example item titled "Rust rocks". -/
def exRust : Item := { title := some "Rust rocks" }

/-! ## Link verifier (`verify_link`, src/utils/verifier.py:8-34)

The two HTTP calls are abstracted by an oracle giving, per timeout, either
a status code or one of the error kinds the Python handlers catch
(`httpx.TimeoutException`, `httpx.HTTPError`, `ValueError`).  The
embedding also returns the trace of requests issued, so that "no request
is made" and "falls back to a GET" are statable; totality of the Lean
function embeds "never raises". -/

/-- Character-list prefix test (`str.startswith`): does the first list
occur at the head of the second? -/
def startsWithChars : List Char → List Char → Bool
  | [], _ => true
  | _ :: _, [] => false
  | a :: pre, b :: s => a == b && startsWithChars pre s

/-- The guard `url and url.startswith(("http://", "https://"))`. -/
def goodUrl (u : String) : Bool :=
  !u.data.isEmpty &&
    (startsWithChars "http://".data u.data || startsWithChars "https://".data u.data)

/-- Error kinds caught by `verify_link`'s handlers. -/
inductive NetErr
  | timeout
  | httpError
  | valueError
  deriving DecidableEq, Repr

/-- A network request issued by `verify_link`. -/
inductive Req
  | head
  | get
  deriving DecidableEq, Repr

/-- Outcome oracle for the two HTTP calls of `verify_link`, as functions
of the timeout passed to `httpx`. -/
structure HttpEnv where
  headResp : ℚ → Except NetErr Nat
  getResp : ℚ → Except NetErr Nat

/-- `verify_link(url, timeout)` from src/utils/verifier.py, instrumented
with the list of requests issued.  `url` is `Option String` because
Python's `not url` guard also catches `None`.  A HEAD of 200 returns true
at once; a HEAD of 404 returns false at once; any other HEAD status falls
through to a GET whose status is compared against 200; a caught error at
either call returns false. -/
def verify_link (url : Option String) (timeout : ℚ) (env : HttpEnv) : Bool × List Req :=
  if !goodUrl (url.getD "") then (false, [])
  else
    match env.headResp timeout with
    | .error _ => (false, [.head])
    | .ok code =>
      if code == 200 then (true, [.head])
      else if code == 404 then (false, [.head])
      else
        match env.getResp timeout with
        | .error _ => (false, [.head, .get])
        | .ok gcode => (gcode == 200, [.head, .get])

/-- The claim's notion of GET success: the GET call returns status 200,
errors counting as failure. -/
def getSuccess (env : HttpEnv) (t : ℚ) : Bool :=
  match env.getResp t with
  | .error _ => false
  | .ok gcode => gcode == 200

/-- C5 as stated: HEAD is issued first; a HEAD status of exactly 404
returns false immediately; for ANY other HEAD status, including success,
a full GET is issued and the result is true only when the GET status is
success; network errors return false. -/
def headFallbackClaim : Prop :=
  ∀ (t : ℚ) (env : HttpEnv) (u : String), goodUrl u = true →
    (∀ e, env.headResp t = .error e → verify_link (some u) t env = (false, [Req.head])) ∧
    (env.headResp t = .ok 404 → verify_link (some u) t env = (false, [Req.head])) ∧
    (∀ s, env.headResp t = .ok s → s ≠ 404 →
      verify_link (some u) t env = (getSuccess env t, [Req.head, Req.get]))

/-- An oracle whose HEAD answers 200 and whose GET answers 404. -/
def envHead200Get404 : HttpEnv := ⟨fun _ => .ok 200, fun _ => .ok 404⟩

/-! ## Link validation (`validate_grok_report`, src/intel_collector.py:86-112)

The pass extracts all matches of `\[([^\]]+)\]\((https?://[^\)]+)\)` from
the text (`re.findall`), and for each match whose URL contains no
skip-listed domain and fails verification, rewrites every occurrence of
`[title](url)` into `[title](url) marker` via `str.replace`.  Both the
regex scan and `str.replace` are embedded on character lists; the
`verify_link` call is abstracted by a boolean oracle `valid`.  The
recursions consume one fuel unit per character so that everything
evaluates inside the kernel; the fuel `length + 1` is never exhausted
because every step consumes at least one character. -/

/-- Split at the first occurrence of `stop`: the run before it (which
cannot contain `stop`) and the remainder after it, or `none` when `stop`
never occurs.  This is how the greedy classes `[^\]]+` and `[^\)]+`
followed by the literal bracket behave. -/
def splitUntil (stop : Char) : List Char → Option (List Char × List Char)
  | [] => none
  | c :: cs =>
    if c = stop then some ([], cs)
    else
      match splitUntil stop cs with
      | none => none
      | some (run, rest) => some (c :: run, rest)

/-- The URL group `https?://[^\)]+`: the run up to the closing bracket
must start with `http://` or `https://` and have at least one further
character. -/
def urlShape (url : List Char) : Bool :=
  (startsWithChars "http://".data url && decide (7 < url.length)) ||
  (startsWithChars "https://".data url && decide (8 < url.length))

/-- One attempt of the link pattern at the head of the text: `[`, a
non-empty run up to the first `]`, then `](`, then a URL of the right
shape up to the first `)`.  Returns the captured (title, url) groups and
the remainder after the match. -/
def matchLinkHere : List Char → Option ((List Char × List Char) × List Char)
  | '[' :: rest =>
    match splitUntil ']' rest with
    | some (title, rest2) =>
      if title = [] then none
      else
        match rest2 with
        | '(' :: rest3 =>
          match splitUntil ')' rest3 with
          | some (url, rest4) => if urlShape url then some ((title, url), rest4) else none
          | none => none
        | _ => none
    | none => none
  | _ => none

/-- `re.findall` scan: try a match at every position from left to right,
advancing one character on failure and past the match on success
(non-overlapping, leftmost).  Fuel counts positions. -/
def findLinksGo : Nat → List Char → List (List Char × List Char)
  | 0, _ => []
  | _ + 1, [] => []
  | fuel + 1, c :: cs =>
    match matchLinkHere (c :: cs) with
    | some ((t, u), rest) => (t, u) :: findLinksGo fuel rest
    | none => findLinksGo fuel cs

/-- `re.findall(link_pattern, content)`. -/
def findLinks (cs : List Char) : List (List Char × List Char) :=
  findLinksGo (cs.length + 1) cs

/-- Fuel-driven body of Python's `str.replace(old, new)`: replace every
non-overlapping occurrence, scanning left to right.  Fuel 0 returns the
remaining text unchanged (never reached from `replaceAll`). -/
def replaceAllGo : Nat → List Char → List Char → List Char → List Char
  | 0, s, _, _ => s
  | _ + 1, [], _, _ => []
  | fuel + 1, c :: cs, old, new =>
    if startsWithChars old (c :: cs) then
      new ++ replaceAllGo fuel ((c :: cs).drop old.length) old new
    else c :: replaceAllGo fuel cs old new

/-- Python `str.replace(old, new)` (the call site always has a non-empty
`old`). -/
def replaceAll (s old new : List Char) : List Char :=
  replaceAllGo (s.length + 1) s old new

/-- The skip list `['twitter.com', 'x.com', 'weibo.com', 'xiaohongshu.com']`. -/
def skip_domains : List (List Char) :=
  ["twitter.com".data, "x.com".data, "weibo.com".data, "xiaohongshu.com".data]

/-- Substring containment, Python's `pat in s`. -/
def containsChars (s pat : List Char) : Bool :=
  (List.range (s.length + 1)).any fun i => startsWithChars pat (s.drop i)

/-- `any(domain in url for domain in skip_domains)`. -/
def skipUrl (url : List Char) : Bool :=
  skip_domains.any fun d => containsChars url d

/-- The inline failure marker appended to a failed link. -/
def failureMarker : List Char := " **(⚠️ 链接验证失败/404)**".data

/-- `f"[{title}]({url})"`. -/
def linkText (t u : List Char) : List Char :=
  '[' :: (t ++ (']' :: '(' :: (u ++ [')'])))

/-- Loop body of the validation pass for one extracted match: skip-listed
URLs are left alone (`continue`), URLs the oracle verifies are left
alone, and a failed URL rewrites every occurrence of its link text with
the failure marker appended. -/
def validateStep (valid : List Char → Bool) (content : List Char)
    (m : List Char × List Char) : List Char :=
  if skipUrl m.2 then content
  else if valid m.2 then content
  else replaceAll content (linkText m.1 m.2) (linkText m.1 m.2 ++ failureMarker)

/-- `validate_grok_report(markdown_content)`: identity when the verifier
is unavailable or no link matches; otherwise the left fold of
`validateStep` over the extracted matches. -/
def validate_grok_report (verifierAvailable : Bool) (valid : List Char → Bool)
    (content : List Char) : List Char :=
  if !verifierAvailable then content
  else
    match findLinks content with
    | [] => content
    | m :: ms => (m :: ms).foldl (validateStep valid) content

/-- C6 as stated: every extracted link whose URL contains a skip-listed
domain is left unmodified by the validation pass — its link text still
occurs verbatim in the output, for every text and every verification
oracle. -/
def skipLinksUntouchedClaim : Prop :=
  ∀ (valid : List Char → Bool) (content : List Char),
    ∀ m ∈ findLinks content, skipUrl m.2 = true →
      linkText m.1 m.2 <:+: validate_grok_report true valid content

/-- Adversarial input for the skip-list claim: the text of the failing
link `[k](http://a[b)` reappears inside the later text, and the second
extracted match carries a title that already contains the failure marker,
so its replacement inserts a marker inside the skip-listed
`[g)tail](https://twitter.com/q)` link. -/
def cexValContent : String :=
  "[k](http://a[b) [b) **(⚠️ 链接验证失败/404)**](https://e/[g) "
    ++ "[k](http://a[b)](https://e/[g)tail](https://twitter.com/q)"

/-! ## ArXiv sensor (`fetch_ai_papers`, src/sensors/arxiv_ai.py:36-59)

`_query_arxiv(query, sort_by, limit)` (which already returns `[]` on any
network or parse failure) is abstracted by an oracle; the loop over the
three fixed strategies is embedded together with the trace of queries and
sleeps it performs. -/

/-- An arXiv paper (the `ArxivPaper` dataclass). -/
structure ArxivPaper where
  id : String
  title : String
  summary : String
  authors : List String
  published : String
  categories : List String
  deriving DecidableEq, Repr

/-- Observable actions of the strategy loop: one API query, or the
`time.sleep(3)` between failed strategies. -/
inductive ArxEvent
  | query (q sortBy : String) (limit : Nat)
  | sleep (secs : Nat)
  deriving DecidableEq, Repr

/-- Is the event a query? -/
def isQueryEvent : ArxEvent → Bool
  | .query _ _ _ => true
  | .sleep _ => false

/-- The three fixed strategies, in source order: default query, broader
category union, broader sort criterion. -/
def strategies : List (String × String) :=
  [("cat:cs.AI", "submittedDate"),
   ("cat:cs.AI+OR+cat:cs.LG+OR+cat:cs.CL", "submittedDate"),
   ("cat:cs.AI+OR+cat:cs.LG", "lastUpdatedDate")]

/-- The strategy loop of `fetch_ai_papers`: return at the first strategy
whose query is non-empty, sleeping 3 seconds after each failed strategy
other than the last (`if i < len(strategies) - 1`). -/
def runStrategies (limit : Nat) (oracle : String → String → Nat → List ArxivPaper) :
    List (String × String) → List ArxEvent → List ArxivPaper × List ArxEvent
  | [], trace => ([], trace)
  | (q, sortBy) :: rest, trace =>
    if oracle q sortBy limit ≠ [] then
      (oracle q sortBy limit, trace ++ [.query q sortBy limit])
    else if rest ≠ [] then
      runStrategies limit oracle rest (trace ++ [.query q sortBy limit, .sleep 3])
    else ([], trace ++ [.query q sortBy limit])

/-- `fetch_ai_papers(limit)` with the `_query_arxiv` oracle made
explicit: the papers returned together with the trace of queries and
sleeps. -/
def fetch_ai_papers (limit : Nat)
    (oracle : String → String → Nat → List ArxivPaper) :
    List ArxivPaper × List ArxEvent :=
  runStrategies limit oracle strategies []

/-- An example paper for the C7 witness. -/
def paperEx : ArxivPaper :=
  { id := "2401.00001", title := "T", summary := "S", authors := ["A"],
    published := "2024-01-01", categories := ["cs.AI"] }

/-- An oracle on which only the second (broader-union) strategy succeeds. -/
def oracleSecond : String → String → Nat → List ArxivPaper :=
  fun q _ _ => if q = "cat:cs.AI+OR+cat:cs.LG+OR+cat:cs.CL" then [paperEx] else []

/-! ## Collector orchestration (`fetch_all_sources`, src/intel_collector.py:115-301)

Each underlying call is abstracted by an `Except`-valued outcome (an
`.error` standing for a raised-and-caught exception) or an availability
flag standing for the optional-import probes.  The `as_completed`
completion order of the external worker pool is an explicit `arrival`
list, so every interleaving is quantified over.  The sensor modules
`sensors.product_hunt`, `sensors.x_grok_sensor` and `sensors.hn_blogs`
are not present in the repository (their imports fail and their flags
stay `False`); their record shapes below are taken from the attribute
accesses in src/intel_collector.py itself. -/

/-- The five always-present external sources of `_fetch_external_sources`. -/
inductive ExtSrc
  | hn
  | github
  | kr36
  | wallstreetcn
  | v2ex
  deriving DecidableEq, Repr

/-- Outcomes of the five external fetchers (an `.error` is a raised
exception caught at the per-future boundary). -/
structure ExtEnv where
  hn : Except String (List Item)
  github : Except String (List Item)
  kr36 : Except String (List Item)
  wallstreetcn : Except String (List Item)
  v2ex : Except String (List Item)

/-- The outcome of one source's future. -/
def extResult (env : ExtEnv) : ExtSrc → Except String (List Item)
  | .hn => env.hn
  | .github => env.github
  | .kr36 => env.kr36
  | .wallstreetcn => env.wallstreetcn
  | .v2ex => env.v2ex

/-- The `source_tasks` table: category and display name per source. -/
def extCategoryName : ExtSrc → String × String
  | .hn => ("tech_trends", "Hacker News")
  | .github => ("tech_trends", "GitHub")
  | .kr36 => ("capital_flow", "36Kr")
  | .wallstreetcn => ("capital_flow", "WallStreetCN")
  | .v2ex => ("community", "V2EX")

/-- The three category lists built by `_fetch_external_sources`. -/
structure ExtResults where
  tech_trends : List Item := []
  capital_flow : List Item := []
  community : List Item := []
  deriving DecidableEq, Repr

/-- `results[category].extend(...)`. -/
def extAppend (r : ExtResults) (cat : String) (items : List Item) : ExtResults :=
  if cat = "tech_trends" then { r with tech_trends := r.tech_trends ++ items }
  else if cat = "capital_flow" then { r with capital_flow := r.capital_flow ++ items }
  else if cat = "community" then { r with community := r.community ++ items }
  else r

/-- `_fetch_external_sources(limit)` (src/intel_collector.py:115-142):
fold over the futures in completion order `arrival`; a successful future
extends its category with the items tagged `{**item, "category": name}`,
a failed future only logs. -/
def _fetch_external_sources (env : ExtEnv) (arrival : List ExtSrc) : ExtResults :=
  arrival.foldl
    (fun r src =>
      match extResult env src with
      | .ok items =>
        extAppend r (extCategoryName src).1
          (items.map fun it => { it with category := (extCategoryName src).2 })
      | .error _ => r)
    {}

/-- A trending product, shaped by the accesses `p.name`, `p.url`,
`p.votes_count`, `p.tagline` in `_fetch_product_hunt` (the
`sensors.product_hunt` module itself is absent from the repository). -/
structure PHProduct where
  name : String
  url : String
  votes_count : Nat
  tagline : String
  deriving DecidableEq, Repr

/-- An XHS lead (the `Lead` dataclass of src/sensors/xhs_radar.py). -/
structure Lead where
  source : String
  title : String
  url : String
  summary : String
  posted_date : String
  tags : List String
  desperation_score : Nat := 0
  deriving DecidableEq, Repr

/-- A blog article, shaped by the accesses `article.title`, `article.url`,
`article.source`, `article.pub_date`, `article.content` in
`_fetch_hn_blogs` (the `sensors.hn_blogs` module is absent from the
repository). -/
structure BlogArticle where
  title : String
  url : String
  source : String
  pub_date : String
  content : String
  deriving DecidableEq, Repr

/-- Availability flags and call outcomes for every optional sensor used
by `fetch_all_sources`.  `Except.error` stands for a raised exception
caught by the surrounding handler; `arxiv_raises` models the
`except`-branch of `_fetch_arxiv` itself. -/
structure SensorEnv where
  ph_available : Bool
  ph_call : Nat → Except String (List PHProduct)
  grok_available : Bool
  grokReview : String → Except String String
  grok_call : Except String String
  verifier_available : Bool
  linkValid : List Char → Bool
  arxiv_available : Bool
  arxivOracle : String → String → Nat → List ArxivPaper
  arxiv_raises : Bool
  xhs_available : Bool
  xhs_call : Except String (List Lead)
  hnblogs_available : Bool
  hnblogs_call : Nat → Except String (List BlogArticle)

/-- One product dict of `_fetch_product_hunt`
(src/intel_collector.py:152-173): the first three products additionally
get a Grok sentiment review when Grok is available and its call both
succeeds and carries no "Error" text. -/
def phToItem (env : SensorEnv) (i : Nat) (p : PHProduct) : Item :=
  { source := "Product Hunt", category := "Product Hunt",
    title := some p.name, url := p.url,
    heat := toString p.votes_count ++ " votes", time := "Today",
    tagline := p.tagline,
    grok_review :=
      if env.grok_available ∧ i < 3 then
        match env.grokReview p.name with
        | .ok r => if r ≠ "" ∧ containsChars r.data "Error".data = false then some r else none
        | .error _ => none
      else none }

/-- `_fetch_product_hunt(limit)` (src/intel_collector.py:145-176). -/
def _fetch_product_hunt (limit : Nat) (env : SensorEnv) : List Item :=
  if !env.ph_available then []
  else
    match env.ph_call limit with
    | .error _ => []
    | .ok products => products.enum.map fun p => phToItem env p.1 p.2

/-- One research dict of `_fetch_arxiv` (src/intel_collector.py:185-193),
using the `ArxivPaper.url` property `https://arxiv.org/abs/{id}`. -/
def arxivToItem (p : ArxivPaper) : Item :=
  { source := "ArXiv", category := "ArXiv",
    title := some p.title, url := "https://arxiv.org/abs/" ++ p.id,
    authors := String.intercalate ", " (p.authors.take 2),
    time := p.published,
    categories := String.intercalate ", " (p.categories.take 2),
    summary := p.summary }

/-- `_fetch_arxiv(limit)` (src/intel_collector.py:179-196). -/
def _fetch_arxiv (limit : Nat) (env : SensorEnv) : List Item :=
  if !env.arxiv_available then []
  else if env.arxiv_raises then []
  else ((fetch_ai_papers limit env.arxivOracle).1).map arxivToItem

/-- `_fetch_grok_social()` (src/intel_collector.py:199-214): a single
markdown-report item whose content went through `validate_grok_report`,
or nothing when Grok is unavailable, fails, or answers with "Error". -/
def _fetch_grok_social (env : SensorEnv) : List Item :=
  if !env.grok_available then []
  else
    match env.grok_call with
    | .error _ => []
    | .ok report =>
      if report ≠ "" ∧ containsChars report.data "Error".data = false then
        [{ source := "X (via Grok)", category := "X/Grok",
           content := String.mk
             (validate_grok_report env.verifier_available env.linkValid report.data),
           itemType := "markdown_report" }]
      else []

/-- One XHS dict of `_fetch_xhs` (src/intel_collector.py:225-228). -/
def leadToItem (l : Lead) : Item :=
  { source := "小红书", category := "XHS",
    title := some l.title, url := l.url, summary := l.summary }

/-- `_fetch_xhs()` (src/intel_collector.py:217-231): at most the first
eight leads (`leads[:8]`). -/
def _fetch_xhs (env : SensorEnv) : List Item :=
  if !env.xhs_available then []
  else
    match env.xhs_call with
    | .error _ => []
    | .ok leads => (leads.take 8).map leadToItem

/-- One insight dict of `_fetch_hn_blogs` (src/intel_collector.py:241-246). -/
def blogToItem (a : BlogArticle) : Item :=
  { source := "HN Top Blogs", category := "HN Blogs",
    title := some a.title, url := a.url,
    author := a.source, time := a.pub_date, content := a.content }

/-- `_fetch_hn_blogs(limit)` (src/intel_collector.py:234-249). -/
def _fetch_hn_blogs (limit : Nat) (env : SensorEnv) : List Item :=
  if !env.hnblogs_available then []
  else
    match env.hnblogs_call limit with
    | .error _ => []
    | .ok articles => articles.map blogToItem

/-- `fetch_all_sources(limit_per_source)` (src/intel_collector.py:266-301):
the `intel` dict literal in source order, with `_dedup_items` applied to
exactly the three externally-scraped categories and the blog sensor
called with the fixed limit 5. -/
def fetch_all_sources (limit_per_source : Nat) (ext : ExtEnv) (arrival : List ExtSrc)
    (senv : SensorEnv) : List (String × List Item) :=
  let external := _fetch_external_sources ext arrival
  [("tech_trends", _dedup_items external.tech_trends),
   ("capital_flow", _dedup_items external.capital_flow),
   ("product_gems", _fetch_product_hunt limit_per_source senv),
   ("community", _dedup_items external.community),
   ("research", _fetch_arxiv limit_per_source senv),
   ("social", _fetch_grok_social senv),
   ("xhs_directives", _fetch_xhs senv),
   ("insights", _fetch_hn_blogs 5 senv)]

/-- Did the call raise (and get caught)? -/
def callFailed {ε α : Type} : Except ε α → Bool
  | .error _ => true
  | .ok _ => false

/-- Every external fetcher call raised. -/
def extAllFail (env : ExtEnv) : Prop :=
  callFailed env.hn = true ∧ callFailed env.github = true ∧ callFailed env.kr36 = true ∧
    callFailed env.wallstreetcn = true ∧ callFailed env.v2ex = true

/-- Every sensor is unavailable, or its call failed (for the paper sensor:
unavailable, raising, or all its queries coming back empty). -/
def sensorsAllFail (env : SensorEnv) (limit : Nat) : Prop :=
  (env.ph_available = false ∨ callFailed (env.ph_call limit) = true) ∧
  (env.arxiv_available = false ∨ env.arxiv_raises = true ∨
    ∀ q s, env.arxivOracle q s limit = []) ∧
  (env.grok_available = false ∨ callFailed env.grok_call = true) ∧
  (env.xhs_available = false ∨ callFailed env.xhs_call = true) ∧
  (env.hnblogs_available = false ∨ callFailed (env.hnblogs_call 5) = true)

/-- An environment where every external fetcher raised. -/
def extEnvFail : ExtEnv :=
  ⟨.error "boom", .error "boom", .error "boom", .error "boom", .error "boom"⟩

/-- An environment where every sensor is unavailable. -/
def senvOff : SensorEnv :=
  { ph_available := false, ph_call := fun _ => .error "off",
    grok_available := false, grokReview := fun _ => .error "off", grok_call := .error "off",
    verifier_available := false, linkValid := fun _ => false,
    arxiv_available := false, arxivOracle := fun _ _ _ => [], arxiv_raises := false,
    xhs_available := false, xhs_call := .error "off",
    hnblogs_available := false, hnblogs_call := fun _ => .error "off" }

/-- A product listed twice, to exhibit the absence of dedup on
`product_gems`. -/
def prodDup : PHProduct :=
  { name := "Dup", url := "https://ph.example/dup", votes_count := 10, tagline := "t" }

/-- A sensor environment whose Product Hunt call returns a duplicated
product. -/
def senvDupPH : SensorEnv :=
  { senvOff with ph_available := true, ph_call := fun _ => .ok [prodDup, prodDup] }

/-- The seen-set loop of `_dedup_items` agrees with the prefix-based
spec-worded deduplicator whenever `seen` holds exactly the non-empty
normalized titles of the already-processed prefix `prev`. -/
theorem dedupGo_eq_dedupSpecFrom (xs : List Item) :
    ∀ (seen : List (List Char)) (prev : List Item),
      (∀ t, t ∈ seen ↔ (t ≠ [] ∧ ∃ p ∈ prev, normTitle p = t)) →
      dedupGo seen xs = dedupSpecFrom prev xs := by
  induction xs with
  | nil => intro seen prev _; rfl
  | cons it rest ih =>
    intro seen prev hinv
    by_cases ht : normTitle it = []
    · have hnext : ∀ t, t ∈ seen ↔ (t ≠ [] ∧ ∃ p ∈ prev ++ [it], normTitle p = t) := by
        intro t
        rw [hinv t]
        constructor
        · rintro ⟨h1, p, hp, h2⟩
          exact ⟨h1, p, List.mem_append_left _ hp, h2⟩
        · rintro ⟨h1, p, hp, h2⟩
          rcases List.mem_append.mp hp with hp | hp
          · exact ⟨h1, p, hp, h2⟩
          · rw [List.mem_singleton.mp hp] at h2
            rw [ht] at h2
            exact absurd h2.symm h1
      have hgo : dedupGo seen (it :: rest) = it :: dedupGo seen rest := by
        rw [dedupGo, if_neg (by simp [ht]), if_pos ht]
      have hsp : dedupSpecFrom prev (it :: rest)
          = it :: dedupSpecFrom (prev ++ [it]) rest := by
        rw [dedupSpecFrom, if_pos (Or.inl ht)]
      rw [hgo, hsp, ih seen (prev ++ [it]) hnext]
    · by_cases hs : normTitle it ∈ seen
      · obtain ⟨-, p, hp, hpt⟩ := (hinv (normTitle it)).mp hs
        have hnext : ∀ t, t ∈ seen ↔ (t ≠ [] ∧ ∃ q ∈ prev ++ [it], normTitle q = t) := by
          intro t
          rw [hinv t]
          constructor
          · rintro ⟨h1, q, hq, h2⟩
            exact ⟨h1, q, List.mem_append_left _ hq, h2⟩
          · rintro ⟨h1, q, hq, h2⟩
            rcases List.mem_append.mp hq with hq | hq
            · exact ⟨h1, q, hq, h2⟩
            · rw [List.mem_singleton.mp hq] at h2
              exact ⟨h1, p, hp, by rw [hpt, h2]⟩
        have hgo : dedupGo seen (it :: rest) = dedupGo seen rest := by
          rw [dedupGo, if_neg (by simp [hs]), if_neg ht]
        have hsp : dedupSpecFrom prev (it :: rest)
            = dedupSpecFrom (prev ++ [it]) rest := by
          rw [dedupSpecFrom, if_neg ?_]
          rintro (h | h)
          · exact ht h
          · exact h p hp hpt
        rw [hgo, hsp, ih seen (prev ++ [it]) hnext]
      · have hnone : ∀ p ∈ prev, normTitle p ≠ normTitle it := by
          intro p hp hpt
          exact hs ((hinv (normTitle it)).mpr ⟨ht, p, hp, hpt⟩)
        have hnext : ∀ t, t ∈ normTitle it :: seen
            ↔ (t ≠ [] ∧ ∃ q ∈ prev ++ [it], normTitle q = t) := by
          intro t
          constructor
          · intro hmem
            rcases List.mem_cons.mp hmem with hmem | hmem
            · exact ⟨by rw [hmem]; exact ht, it, List.mem_append_right _ (List.mem_singleton_self it), hmem.symm⟩
            · obtain ⟨h1, q, hq, h2⟩ := (hinv t).mp hmem
              exact ⟨h1, q, List.mem_append_left _ hq, h2⟩
          · rintro ⟨h1, q, hq, h2⟩
            rcases List.mem_append.mp hq with hq | hq
            · exact List.mem_cons_of_mem _ ((hinv t).mpr ⟨h1, q, hq, h2⟩)
            · rw [List.mem_singleton.mp hq] at h2
              rw [← h2]
              exact List.mem_cons_self _ _
        have hgo : dedupGo seen (it :: rest)
            = it :: dedupGo (normTitle it :: seen) rest := by
          rw [dedupGo, if_pos ⟨ht, hs⟩]
        have hsp : dedupSpecFrom prev (it :: rest)
            = it :: dedupSpecFrom (prev ++ [it]) rest := by
          rw [dedupSpecFrom, if_pos (Or.inr hnone)]
        rw [hgo, hsp, ih (normTitle it :: seen) (prev ++ [it]) hnext]

/-- Running the dedup loop again over its own output, with the same seen
set, changes nothing. -/
theorem dedupGo_idem (xs : List Item) :
    ∀ seen, dedupGo seen (dedupGo seen xs) = dedupGo seen xs := by
  induction xs with
  | nil => intro seen; rfl
  | cons it rest ih =>
    intro seen
    by_cases ht : normTitle it = []
    · have hgo : dedupGo seen (it :: rest) = it :: dedupGo seen rest := by
        rw [dedupGo, if_neg (by simp [ht]), if_pos ht]
      rw [hgo, dedupGo, if_neg (by simp [ht]), if_pos ht, ih seen]
    · by_cases hs : normTitle it ∈ seen
      · have hgo : dedupGo seen (it :: rest) = dedupGo seen rest := by
          rw [dedupGo, if_neg (by simp [hs]), if_neg ht]
        rw [hgo, ih seen]
      · have hgo : dedupGo seen (it :: rest)
            = it :: dedupGo (normTitle it :: seen) rest := by
          rw [dedupGo, if_pos ⟨ht, hs⟩]
        rw [hgo, dedupGo, if_pos ⟨ht, hs⟩, ih (normTitle it :: seen)]

/-- C2: `_dedup_items` normalizes each title by trimming and lowercasing,
keeps exactly the first occurrence of each distinct non-empty normalized
title in input order and keeps every item whose normalized title is empty
(the prefix-based `dedupSpec` states exactly that reading); on
`[{title:"Hello World"}, {title:"hello world"}, {title:"Different"}]` the
output is the items titled `"Hello World"` and `"Different"` in that
order, and two items both titled `""` are both kept. -/
theorem C2_dedup_first_occurrence :
    (∀ items : List Item, _dedup_items items = dedupSpec items) ∧
    _dedup_items [exHello, exHello2, exDifferent] = [exHello, exDifferent] ∧
    _dedup_items [exEmptyA, exEmptyB] = [exEmptyA, exEmptyB] := by
  refine ⟨fun items => ?_, by decide, by decide⟩
  exact dedupGo_eq_dedupSpecFrom items [] [] (by simp)

/-- C8: the deduplicator is idempotent — applying `_dedup_items` to its
own output returns that output unchanged, for every input list. -/
theorem C8_dedup_idempotent :
    ∀ items : List Item, _dedup_items (_dedup_items items) = _dedup_items items :=
  fun items => dedupGo_idem items []

/-- C4: with no keyword the input is returned unfiltered; with a keyword
whose comma-split yields at least one non-empty stripped term, exactly the
items whose title contains some term as a whole word (case-insensitively)
are kept; for titles ["Python is great","Java is fine","Rust rocks"] and
keyword "Python" the result is the single item titled "Python is great". -/
theorem C4_filter_items_keyword :
    (∀ items : List Item, filter_items items none = items) ∧
    (∀ (items : List Item) (kw : String) (it : Item),
      kw ≠ "" → splitKeywords kw ≠ [] →
      (it ∈ filter_items items (some kw) ↔
        it ∈ items ∧
          ((splitKeywords kw).any fun k => wholeWordMatch it.getTitle.data k) = true)) ∧
    filter_items [exPython, exJava, exRust] (some "Python") = [exPython] := by
  refine ⟨fun items => rfl, fun items kw it hkw hterms => ?_, by decide⟩
  rw [filter_items, if_neg hkw]
  rw [List.mem_filter]
  have hne : (splitKeywords kw).isEmpty = false := by
    cases h : splitKeywords kw with
    | nil => exact absurd h hterms
    | cons a l => rfl
  unfold titleMatches
  rw [hne]
  simp

/-- Witness for C4: the membership characterization applied at the example
input, discharging both hypotheses at `kw = "Python"`. -/
theorem C4_filter_items_keyword_witness :
    exPython ∈ filter_items [exPython, exJava, exRust] (some "Python") ↔
      exPython ∈ [exPython, exJava, exRust] ∧
        ((splitKeywords "Python").any fun k => wholeWordMatch exPython.getTitle.data k) = true :=
  C4_filter_items_keyword.2.1 [exPython, exJava, exRust] "Python" exPython
    (by decide) (by decide)

/-- C9: a non-empty keyword all of whose comma-separated terms strip to
the empty string (such as "," or " , ") produces the empty term list, so
the joined pattern is the empty alternation, which matches every title:
`filter_items` keeps every input item in order. -/
theorem C9_degenerate_keyword_keeps_all :
    ∀ (items : List Item) (kw : String), kw ≠ "" → splitKeywords kw = [] →
      filter_items items (some kw) = items := by
  intro items kw hkw hterms
  rw [filter_items, if_neg hkw]
  refine List.filter_eq_self.mpr fun it _ => ?_
  rw [titleMatches, hterms]
  rfl

/-- Witness for C9: the commas-and-whitespace-only keyword " , " leaves
the example item list untouched. -/
theorem C9_degenerate_keyword_keeps_all_witness :
    filter_items [exPython, exJava, exRust] (some " , ") = [exPython, exJava, exRust] :=
  C9_degenerate_keyword_keeps_all [exPython, exJava, exRust] " , " (by decide) (by decide)

/-- C5 counterexample: on HEAD status 200 the code returns true
immediately and never issues the claimed GET fallback — with a GET that
would answer 404, the claim demands the result `(false, [head, get])`
while the code produces `(true, [head])`. -/
theorem C5_head_fallback_claim_false : ¬ headFallbackClaim := by
  intro h
  have h2 := (h 5 envHead200Get404 "https://example.com" (by decide)).2.2 200 rfl (by decide)
  have h3 : verify_link (some "https://example.com") 5 envHead200Get404
      = (true, [Req.head]) := by decide
  rw [h3] at h2
  exact absurd h2 (by decide)

/-- C5 amended: HEAD is issued first and no exception escapes (the
function is total); a HEAD status of 200 returns true immediately with no
GET; a HEAD status of exactly 404 returns false immediately; any other
HEAD status falls back to a full GET which returns true only when the GET
status is 200; a network error at either call returns false. -/
theorem C5_verify_link_behavior :
    ∀ (t : ℚ) (env : HttpEnv) (u : String), goodUrl u = true →
      (∀ e, env.headResp t = .error e → verify_link (some u) t env = (false, [Req.head])) ∧
      (env.headResp t = .ok 200 → verify_link (some u) t env = (true, [Req.head])) ∧
      (env.headResp t = .ok 404 → verify_link (some u) t env = (false, [Req.head])) ∧
      (∀ s, env.headResp t = .ok s → s ≠ 200 → s ≠ 404 →
        verify_link (some u) t env = (getSuccess env t, [Req.head, Req.get])) := by
  intro t env u hu
  refine ⟨fun e he => ?_, fun he => ?_, fun he => ?_, fun s hs hs200 hs404 => ?_⟩
  · simp [verify_link, hu, he]
  · simp [verify_link, hu, he]
  · simp [verify_link, hu, he]
  · rw [verify_link]
    simp only [Option.getD, hu, Bool.not_true, Bool.false_eq_true, if_false, hs]
    rw [if_neg (by simp [hs200]), if_neg (by simp [hs404]), getSuccess]
    cases hg : env.getResp t with
    | error e => rfl
    | ok g => rfl

/-- Witness for the amended C5: a HEAD of 500 with a GET of 200 yields
true after both requests; the other branches at concrete oracles. -/
theorem C5_verify_link_behavior_witness :
    verify_link (some "https://example.com") 5 ⟨fun _ => .ok 500, fun _ => .ok 200⟩
      = (true, [Req.head, Req.get]) ∧
    verify_link (some "https://example.com") 5 ⟨fun _ => .ok 404, fun _ => .ok 200⟩
      = (false, [Req.head]) ∧
    verify_link (some "https://example.com") 5 ⟨fun _ => .error .timeout, fun _ => .ok 200⟩
      = (false, [Req.head]) := by
  refine ⟨?_, ?_, ?_⟩
  · have h := (C5_verify_link_behavior 5 ⟨fun _ => .ok 500, fun _ => .ok 200⟩
      "https://example.com" (by decide)).2.2.2 500 rfl (by decide) (by decide)
    rw [h]; decide
  · exact (C5_verify_link_behavior 5 ⟨fun _ => .ok 404, fun _ => .ok 200⟩
      "https://example.com" (by decide)).2.2.1 rfl
  · exact (C5_verify_link_behavior 5 ⟨fun _ => .error .timeout, fun _ => .ok 200⟩
      "https://example.com" (by decide)).1 .timeout rfl

/-- C10: an empty, missing or non-http(s) URL makes `verify_link` return
false immediately, for every timeout and every oracle — in particular no
HTTP request is issued (the request trace is empty and the result is
independent of the oracle). -/
theorem C10_invalid_url_no_request :
    ∀ (url : Option String) (t : ℚ) (env : HttpEnv),
      goodUrl (url.getD "") = false → verify_link url t env = (false, []) := by
  intro url t env h
  simp [verify_link, h]

/-- Witness for C10 at `None`, the empty string, "not-a-url" and
"ftp://example.com", against an oracle that would answer 200 to
everything. -/
theorem C10_invalid_url_no_request_witness :
    verify_link none 5 ⟨fun _ => .ok 200, fun _ => .ok 200⟩ = (false, []) ∧
    verify_link (some "") 5 ⟨fun _ => .ok 200, fun _ => .ok 200⟩ = (false, []) ∧
    verify_link (some "not-a-url") 5 ⟨fun _ => .ok 200, fun _ => .ok 200⟩ = (false, []) ∧
    verify_link (some "ftp://example.com") 5 ⟨fun _ => .ok 200, fun _ => .ok 200⟩ = (false, []) :=
  ⟨C10_invalid_url_no_request none 5 _ (by decide),
   C10_invalid_url_no_request (some "") 5 _ (by decide),
   C10_invalid_url_no_request (some "not-a-url") 5 _ (by decide),
   C10_invalid_url_no_request (some "ftp://example.com") 5 _ (by decide)⟩

/-- `startsWithChars` decides list-prefixhood. -/
theorem startsWithChars_iff (pre : List Char) :
    ∀ s : List Char, startsWithChars pre s = true ↔ pre <+: s := by
  induction pre with
  | nil => intro s; simp [startsWithChars]
  | cons a pre ih =>
    intro s
    cases s with
    | nil =>
      simp only [startsWithChars, Bool.false_eq_true, false_iff]
      exact fun h => by simpa using h.length_le
    | cons b bs =>
      rw [startsWithChars, Bool.and_eq_true, beq_iff_eq, ih bs, List.cons_prefix_cons]

/-- Replacing `old` by `old ++ mk` only inserts `mk` after occurrences of
`old`: an occurrence of `old` survives the rewrite. -/
theorem infix_replaceAllGo (old mk : List Char) (hold : old ≠ []) :
    ∀ (fuel : Nat) (s : List Char), old <:+: s →
      old <:+: replaceAllGo fuel s old (old ++ mk) := by
  intro fuel
  induction fuel with
  | zero => intro s h; exact h
  | succ fuel ih =>
    intro s h
    match s with
    | [] =>
      have : old = [] := by simpa using h
      exact absurd this hold
    | c :: cs =>
      by_cases hstart : startsWithChars old (c :: cs) = true
      · rw [replaceAllGo, if_pos hstart]
        have h1 : old <+: (old ++ mk)
            ++ replaceAllGo fuel ((c :: cs).drop old.length) old (old ++ mk) := by
          rw [List.append_assoc]
          exact List.prefix_append _ _
        exact h1.isInfix
      · rw [replaceAllGo, if_neg hstart]
        rcases List.infix_cons_iff.mp h with hp | hi
        · exact absurd ((startsWithChars_iff old (c :: cs)).mpr hp) hstart
        · exact List.infix_cons (ih cs hi)

/-- Matches whose URL is skip-listed or verifies successfully contribute
an identity step, so the validation fold only acts through the non-skip
failing matches. -/
theorem foldl_validateStep_filter (valid : List Char → Bool) :
    ∀ (ms : List (List Char × List Char)) (content : List Char),
      ms.foldl (validateStep valid) content
        = (ms.filter fun m => !skipUrl m.2 && !valid m.2).foldl
            (validateStep valid) content := by
  intro ms
  induction ms with
  | nil => intro c; rfl
  | cons m ms ih =>
    intro c
    by_cases hskip : skipUrl m.2 = true
    · have hstep : validateStep valid c m = c := by rw [validateStep, if_pos hskip]
      rw [List.foldl_cons, hstep, List.filter_cons, if_neg (by simp [hskip]), ih c]
    · by_cases hval : valid m.2 = true
      · have hstep : validateStep valid c m = c := by
          rw [validateStep, if_neg hskip, if_pos hval]
        rw [List.foldl_cons, hstep, List.filter_cons, if_neg (by simp [hskip, hval]), ih c]
      · rw [List.foldl_cons, List.filter_cons, if_pos (by simp [hskip, hval]),
          List.foldl_cons, ih (validateStep valid c m)]

set_option maxRecDepth 100000 in
/-- C6 counterexample: on `cexValContent` with every verification
failing, the skip-listed match `("g)tail", "https://twitter.com/q")` is
extracted, yet its link text no longer occurs in the validated output —
the other matches' `str.replace` rewrites insert a failure marker inside
it, so the code does not leave every skip-listed link unmodified. -/
theorem C6_skip_links_claim_false : ¬ skipLinksUntouchedClaim := by
  intro h
  have h2 := h (fun _ => false) cexValContent.data
    ("g)tail".data, "https://twitter.com/q".data) (by decide) (by decide)
  exact absurd h2 (by decide)

set_option maxRecDepth 100000 in
/-- C6 amended: text containing no extractable Markdown link is returned
completely unchanged; the validation fold acts only through the matches
that are neither skip-listed nor verified (skip-listed and reachable
links trigger no replacement step); each replacement step only appends
the failure marker after occurrences of its own link text, never deleting
it (an occurrence of the link survives its rewrite); and on a text whose
links do not overlap textually — a skip-listed link plus an unreachable
link — the skip-listed link is untouched and the unreachable one gains
exactly the inline marker.  (A skip-listed link can still be textually
altered when another match's link text overlaps it, as the counterexample
shows.) -/
theorem C6_validate_links_amended :
    (∀ (avail : Bool) (valid : List Char → Bool) (content : List Char),
      findLinks content = [] → validate_grok_report avail valid content = content) ∧
    (∀ (valid : List Char → Bool) (content : List Char),
      validate_grok_report true valid content
        = ((findLinks content).filter fun m => !skipUrl m.2 && !valid m.2).foldl
            (validateStep valid) content) ∧
    (∀ (old mk s : List Char), old ≠ [] → old <:+: s →
      old <:+: replaceAll s old (old ++ mk)) ∧
    validate_grok_report true (fun _ => false)
        "Check [this](https://twitter.com/user) and [broken](http://dead.server/page)".data
      = ("Check [this](https://twitter.com/user) and [broken](http://dead.server/page)"
          ++ " **(⚠️ 链接验证失败/404)**").data := by
  refine ⟨fun avail valid content h => ?_, fun valid content => ?_, ?_, by decide⟩
  · cases avail with
    | false => rfl
    | true =>
      rw [validate_grok_report]
      rw [h]
      rfl
  · cases hm : findLinks content with
    | nil => rw [validate_grok_report, hm]; rfl
    | cons m ms =>
      rw [validate_grok_report, hm]
      exact foldl_validateStep_filter valid (m :: ms) content
  · intro old mk s hold h
    exact infix_replaceAllGo old mk hold (s.length + 1) s h

/-- Witness for the amended C6: the no-link branch at a concrete linkless
text, and the marker-insertion property at a concrete occurrence. -/
theorem C6_validate_links_amended_witness :
    validate_grok_report true (fun _ => false) "no markdown links here".data
      = "no markdown links here".data ∧
    "ab".data <:+: replaceAll "xxabyy".data "ab".data ("ab".data ++ "Z".data) :=
  ⟨C6_validate_links_amended.1 true (fun _ => false) "no markdown links here".data (by decide),
   C6_validate_links_amended.2.2.1 "ab".data "Z".data "xxabyy".data (by decide) (by decide)⟩

/-- C7: at most three query strategies are executed, in the fixed order
default query / broader category union / broader sort criterion; the
first strategy with a non-empty result is returned with no later strategy
tried; a fixed 3-second sleep separates consecutive strategies; and the
empty list is returned only after all three strategies come back empty
(with all three queries in the trace). -/
theorem C7_arxiv_fallback :
    ∀ (limit : Nat) (oracle : String → String → Nat → List ArxivPaper),
      ((fetch_ai_papers limit oracle).2.filter isQueryEvent).length ≤ 3 ∧
      (oracle "cat:cs.AI" "submittedDate" limit ≠ [] →
        fetch_ai_papers limit oracle
          = (oracle "cat:cs.AI" "submittedDate" limit,
             [.query "cat:cs.AI" "submittedDate" limit])) ∧
      (oracle "cat:cs.AI" "submittedDate" limit = [] →
       oracle "cat:cs.AI+OR+cat:cs.LG+OR+cat:cs.CL" "submittedDate" limit ≠ [] →
        fetch_ai_papers limit oracle
          = (oracle "cat:cs.AI+OR+cat:cs.LG+OR+cat:cs.CL" "submittedDate" limit,
             [.query "cat:cs.AI" "submittedDate" limit, .sleep 3,
              .query "cat:cs.AI+OR+cat:cs.LG+OR+cat:cs.CL" "submittedDate" limit])) ∧
      (oracle "cat:cs.AI" "submittedDate" limit = [] →
       oracle "cat:cs.AI+OR+cat:cs.LG+OR+cat:cs.CL" "submittedDate" limit = [] →
       oracle "cat:cs.AI+OR+cat:cs.LG" "lastUpdatedDate" limit ≠ [] →
        fetch_ai_papers limit oracle
          = (oracle "cat:cs.AI+OR+cat:cs.LG" "lastUpdatedDate" limit,
             [.query "cat:cs.AI" "submittedDate" limit, .sleep 3,
              .query "cat:cs.AI+OR+cat:cs.LG+OR+cat:cs.CL" "submittedDate" limit, .sleep 3,
              .query "cat:cs.AI+OR+cat:cs.LG" "lastUpdatedDate" limit])) ∧
      (oracle "cat:cs.AI" "submittedDate" limit = [] →
       oracle "cat:cs.AI+OR+cat:cs.LG+OR+cat:cs.CL" "submittedDate" limit = [] →
       oracle "cat:cs.AI+OR+cat:cs.LG" "lastUpdatedDate" limit = [] →
        fetch_ai_papers limit oracle
          = ([],
             [.query "cat:cs.AI" "submittedDate" limit, .sleep 3,
              .query "cat:cs.AI+OR+cat:cs.LG+OR+cat:cs.CL" "submittedDate" limit, .sleep 3,
              .query "cat:cs.AI+OR+cat:cs.LG" "lastUpdatedDate" limit])) := by
  intro limit oracle
  refine ⟨?_, fun h1 => ?_, fun h1 h2 => ?_, fun h1 h2 h3 => ?_, fun h1 h2 h3 => ?_⟩
  · by_cases h1 : oracle "cat:cs.AI" "submittedDate" limit = []
    · by_cases h2 : oracle "cat:cs.AI+OR+cat:cs.LG+OR+cat:cs.CL" "submittedDate" limit = []
      · by_cases h3 : oracle "cat:cs.AI+OR+cat:cs.LG" "lastUpdatedDate" limit = []
        · simp [fetch_ai_papers, strategies, runStrategies, h1, h2, h3, isQueryEvent]
        · simp [fetch_ai_papers, strategies, runStrategies, h1, h2, h3, isQueryEvent]
      · simp [fetch_ai_papers, strategies, runStrategies, h1, h2, isQueryEvent]
    · simp [fetch_ai_papers, strategies, runStrategies, h1, isQueryEvent]
  · simp [fetch_ai_papers, strategies, runStrategies, h1]
  · simp [fetch_ai_papers, strategies, runStrategies, h1, h2]
  · simp [fetch_ai_papers, strategies, runStrategies, h1, h2, h3]
  · simp [fetch_ai_papers, strategies, runStrategies, h1, h2, h3]

/-- Witness for C7: with only the second strategy succeeding, the result
is that strategy's papers after one sleep, with no third query. -/
theorem C7_arxiv_fallback_witness :
    fetch_ai_papers 10 oracleSecond
      = ([paperEx],
         [.query "cat:cs.AI" "submittedDate" 10, .sleep 3,
          .query "cat:cs.AI+OR+cat:cs.LG+OR+cat:cs.CL" "submittedDate" 10]) := by
  have h := (C7_arxiv_fallback 10 oracleSecond).2.2.1 (by decide) (by decide)
  rw [h]
  decide

/-- `callFailed` characterized. -/
theorem callFailed_iff {ε α : Type} (r : Except ε α) :
    callFailed r = true ↔ ∃ e, r = .error e := by
  cases r with
  | error e => simp [callFailed]
  | ok a => simp [callFailed]

/-- Under `extAllFail` every future's outcome is an error. -/
theorem extAllFail_error (env : ExtEnv) (h : extAllFail env) (src : ExtSrc) :
    ∃ e, extResult env src = .error e := by
  obtain ⟨h1, h2, h3, h4, h5⟩ := h
  cases src with
  | hn => exact (callFailed_iff _).mp h1
  | github => exact (callFailed_iff _).mp h2
  | kr36 => exact (callFailed_iff _).mp h3
  | wallstreetcn => exact (callFailed_iff _).mp h4
  | v2ex => exact (callFailed_iff _).mp h5

/-- A fold whose step never changes the accumulator is the identity. -/
theorem foldl_const {α β : Type} (f : β → α → β) (l : List α) (h : ∀ b a, f b a = b) :
    ∀ b, l.foldl f b = b := by
  induction l with
  | nil => intro b; rfl
  | cons x xs ih => intro b; rw [List.foldl_cons, h b x, ih b]

/-- When every external call fails, `_fetch_external_sources` returns
three empty lists regardless of the completion order. -/
theorem fetch_external_all_fail (env : ExtEnv) (h : extAllFail env) (arrival : List ExtSrc) :
    _fetch_external_sources env arrival = {} := by
  rw [_fetch_external_sources]
  refine foldl_const _ arrival (fun r src => ?_) ({} : ExtResults)
  obtain ⟨e, he⟩ := extAllFail_error env h src
  rw [he]

/-- C1: for every limit, completion order and environment,
`fetch_all_sources` returns an association list whose key sequence is
exactly the eight fixed categories; and when every external call fails
and every sensor is unavailable or failing, the bundle is exactly the
eight categories each mapped to the empty list — no exception escapes
(the embedded collector is a total function, every raise being caught at
a helper boundary). -/
theorem C1_bundle_complete :
    (∀ (limit : Nat) (ext : ExtEnv) (arrival : List ExtSrc) (senv : SensorEnv),
      (fetch_all_sources limit ext arrival senv).map Prod.fst
        = ["tech_trends", "capital_flow", "product_gems", "community",
           "research", "social", "xhs_directives", "insights"]) ∧
    (∀ (limit : Nat) (ext : ExtEnv) (arrival : List ExtSrc) (senv : SensorEnv),
      extAllFail ext → sensorsAllFail senv limit →
      fetch_all_sources limit ext arrival senv
        = [("tech_trends", []), ("capital_flow", []), ("product_gems", []),
           ("community", []), ("research", []), ("social", []),
           ("xhs_directives", []), ("insights", [])]) := by
  constructor
  · intro limit ext arrival senv
    rfl
  · intro limit ext arrival senv hext hsen
    obtain ⟨hph, harx, hgrok, hxhs, hblog⟩ := hsen
    have hextr : _fetch_external_sources ext arrival = {} :=
      fetch_external_all_fail ext hext arrival
    have h1 : _fetch_product_hunt limit senv = [] := by
      rcases hph with hph | hph
      · rw [_fetch_product_hunt, hph]
        rfl
      · obtain ⟨e, he⟩ := (callFailed_iff _).mp hph
        rw [_fetch_product_hunt, he]
        cases senv.ph_available <;> rfl
    have h2 : _fetch_arxiv limit senv = [] := by
      rcases harx with h | h | h
      · rw [_fetch_arxiv, h]
        rfl
      · rw [_fetch_arxiv, h]
        cases senv.arxiv_available <;> rfl
      · have hfp : (fetch_ai_papers limit senv.arxivOracle).1 = [] := by
          simp [fetch_ai_papers, strategies, runStrategies, h]
        rw [_fetch_arxiv, hfp]
        simp
    have h3 : _fetch_grok_social senv = [] := by
      rcases hgrok with h | h
      · rw [_fetch_grok_social, h]
        rfl
      · obtain ⟨e, he⟩ := (callFailed_iff _).mp h
        rw [_fetch_grok_social, he]
        cases senv.grok_available <;> rfl
    have h4 : _fetch_xhs senv = [] := by
      rcases hxhs with h | h
      · rw [_fetch_xhs, h]
        rfl
      · obtain ⟨e, he⟩ := (callFailed_iff _).mp h
        rw [_fetch_xhs, he]
        cases senv.xhs_available <;> rfl
    have h5 : _fetch_hn_blogs 5 senv = [] := by
      rcases hblog with h | h
      · rw [_fetch_hn_blogs, h]
        rfl
      · obtain ⟨e, he⟩ := (callFailed_iff _).mp h
        rw [_fetch_hn_blogs, he]
        cases senv.hnblogs_available <;> rfl
    simp only [fetch_all_sources, hextr, h1, h2, h3, h4, h5]
    rfl

/-- Witness for C1: the concrete all-failing run yields the well-formed
empty bundle. -/
theorem C1_bundle_complete_witness :
    fetch_all_sources 10 extEnvFail [.hn, .github, .kr36, .wallstreetcn, .v2ex] senvOff
      = [("tech_trends", []), ("capital_flow", []), ("product_gems", []),
         ("community", []), ("research", []), ("social", []),
         ("xhs_directives", []), ("insights", [])] :=
  C1_bundle_complete.2 10 extEnvFail [.hn, .github, .kr36, .wallstreetcn, .v2ex] senvOff
    ⟨rfl, rfl, rfl, rfl, rfl⟩
    ⟨Or.inl rfl, Or.inl rfl, Or.inl rfl, Or.inl rfl, Or.inl rfl⟩

/-- C3: in the assembled bundle, exactly the three externally-scraped
categories tech_trends, capital_flow and community go through
`_dedup_items` before insertion, and the five sensor-sourced categories
are inserted exactly as their helpers produced them, for every
combination of fetcher and sensor results; with a duplicated Product Hunt
feed the `product_gems` entry indeed keeps both copies, which
`_dedup_items` would have collapsed. -/
theorem C3_dedup_only_external :
    (∀ (limit : Nat) (ext : ExtEnv) (arrival : List ExtSrc) (senv : SensorEnv),
      (fetch_all_sources limit ext arrival senv).lookup "tech_trends"
          = some (_dedup_items (_fetch_external_sources ext arrival).tech_trends) ∧
      (fetch_all_sources limit ext arrival senv).lookup "capital_flow"
          = some (_dedup_items (_fetch_external_sources ext arrival).capital_flow) ∧
      (fetch_all_sources limit ext arrival senv).lookup "community"
          = some (_dedup_items (_fetch_external_sources ext arrival).community) ∧
      (fetch_all_sources limit ext arrival senv).lookup "product_gems"
          = some (_fetch_product_hunt limit senv) ∧
      (fetch_all_sources limit ext arrival senv).lookup "research"
          = some (_fetch_arxiv limit senv) ∧
      (fetch_all_sources limit ext arrival senv).lookup "social"
          = some (_fetch_grok_social senv) ∧
      (fetch_all_sources limit ext arrival senv).lookup "xhs_directives"
          = some (_fetch_xhs senv) ∧
      (fetch_all_sources limit ext arrival senv).lookup "insights"
          = some (_fetch_hn_blogs 5 senv)) ∧
    ((fetch_all_sources 10 extEnvFail [] senvDupPH).lookup "product_gems"
        = some (_fetch_product_hunt 10 senvDupPH) ∧
      _dedup_items (_fetch_product_hunt 10 senvDupPH) ≠ _fetch_product_hunt 10 senvDupPH) := by
  refine ⟨fun limit ext arrival senv => ⟨rfl, rfl, rfl, rfl, rfl, rfl, rfl, rfl⟩, rfl, ?_⟩
  decide

end IntelBriefing
